import Mathlib

/-
Shallow embedding of src/src/FileUploader.js (react-dropzone-uploader).

The component is single-threaded and event-driven: every piece of work is a
host callback running to completion on one logical thread.  We model each
callback (file intake, the preview generator, the upload trigger closure, the
transport listeners, cancel and remove) as a pure function from the component
state (the entry list plus the module-global id counter) to a new state
together with a list of observable effects (observer notifications, render
requests, object-URL allocation and release, transport sends and aborts).
Host-supplied asynchronous answers (decode metadata, the resolved upload
parameters, the onUploadReady decision) are passed in as an environment,
which is the standard way to embed code that awaits host callbacks.
-/

namespace FileUploader

/-- Per-entry status strings used by the source (meta.status). -/
inductive Status where
  | preparing
  | error_file_size
  | uploading
  | headers_received
  | done
  | error_upload
  | aborted
  | error_upload_params
  deriving DecidableEq

/-- JavaScript number as stored in meta.percent: a finite rational, NaN, or
Infinity.  NaN and Infinity arise from the division in the progress handler
(line 218 of the source) when e.total is zero. -/
inductive JsNum where
  | finite (q : ℚ)
  | nan
  | inf
  deriving DecidableEq

/-- JavaScript truthiness of a number: 0 and NaN are falsy, everything else
(including Infinity) is truthy. -/
def JsNum.truthy : JsNum → Bool
  | JsNum.finite q => q ≠ 0
  | JsNum.nan => false
  | JsNum.inf => true

/-- JavaScript a || b on numbers: a when truthy, otherwise b. -/
def jsOr (a b : JsNum) : JsNum :=
  if a.truthy then a else b

/-- JavaScript evaluation of (loaded * 100.0) / total for the nonnegative
byte counts of a progress event: 0/0 is NaN, positive/0 is Infinity,
otherwise the exact quotient (modelled over the rationals). -/
def jsDivMul100 (loaded total : ℚ) : JsNum :=
  if total = 0 then (if loaded = 0 then JsNum.nan else JsNum.inf)
  else JsNum.finite (loaded * 100 / total)

/-- Line 218 of the source: ((e.loaded * 100.0) / e.total) || 100. -/
def progressPercent (loaded total : ℚ) : JsNum :=
  jsOr (jsDivMul100 loaded total) (JsNum.finite 100)

/-- The raw File handle delivered by the host: name, size, MIME type and the
numeric lastModified timestamp (0 models a missing or epoch timestamp, which
is falsy in the source at line 106). -/
structure RawFile where
  name : String
  size : Nat
  type : String
  lastModified : Nat
  deriving DecidableEq

/-- The mutable meta record of an entry (line 109 and later mutations). -/
structure Meta where
  name : String
  size : Nat
  type : String
  lastModifiedDate : Option Nat
  uploadedDate : String
  status : Status
  percent : JsNum
  id : Nat
  previewUrl : Option String := none
  width : Option Nat := none
  height : Option Nat := none
  duration : Option ℚ := none
  videoWidth : Option Nat := none
  videoHeight : Option Nat := none
  deriving DecidableEq

/-- The configured transport request built by uploadFile (lines 207 to 244):
method and url from xhr.open, the fixed identification header plus the
host-supplied headers, the extra form fields, and the file payload appended
under the file field. -/
structure Xhr where
  method : String
  url : String
  headers : List (String × String)
  fields : List (String × String)
  filePayload : RawFile
  deriving DecidableEq

/-- One entry of this._files.  hasTrigger models the presence of the
triggerUpload property (line 142); triggered models the boolean captured by
the triggerUpload closure (line 125).  xhr models the transport handle
assigned at line 245. -/
structure FileWithMeta where
  file : RawFile
  meta : Meta
  xhr : Option Xhr := none
  hasTrigger : Bool := false
  triggered : Bool := false
  deriving DecidableEq

/-- The value resolved by getUploadParams (destructured at line 198 with the
same defaults).  extraMeta models the spread of the meta field of the params
over the entry meta at line 214. -/
structure UploadParams where
  fields : List (String × String) := []
  headers : List (String × String) := []
  extraMeta : Meta → Meta := fun m => m
  method : String := "POST"
  url : Option String := none

instance : Inhabited UploadParams := ⟨{}⟩

/-- Component configuration: the props read by the modelled methods.  The
has* booleans record which optional callback props are supplied. -/
structure Config where
  maxSizeBytes : Nat
  maxFiles : Nat
  allowedTypePrefixes : Option (List String)
  previewTypes : List String
  hasGetUploadParams : Bool
  hasOnUploadReady : Bool
  hasOnChangeStatus : Bool
  hasOnCancel : Bool
  hasOnRemove : Bool

/-- Host-supplied answers for the asynchronous steps of handleFile: the
timestamp taken at line 105, the object URL allocated at line 159, the
metadata read from the decode callbacks, the onUploadReady decision
(line 144) and the resolved upload params (line 197). -/
structure Env where
  uploadedDate : String
  objectUrl : String
  imgWidth : Nat
  imgHeight : Nat
  duration : ℚ
  videoWidth : Nat
  videoHeight : Nat
  delayUpload : Bool
  params : Option UploadParams

/-- Observable effects of the modelled callbacks.  entryCreated marks the
push at line 111; changeStatus is an invocation of the onChangeStatus
observer; render is a forceUpdate call; xhrSend is xhr.send; xhrAbort is
xhr.abort; the remaining constructors mark the observer calls and the
object-URL lifecycle calls. -/
inductive Event where
  | entryCreated (i : Nat)
  | changeStatus (i : Nat) (s : Status)
  | render
  | xhrSend (url : String)
  | xhrAbort (i : Nat)
  | cancelObserver (i : Nat)
  | removeObserver (i : Nat)
  | createObjectURL (u : String)
  | revokeObjectURL (u : String)
  deriving DecidableEq

/-- Prefix test on strings through their character lists, evaluating the
JavaScript type.startsWith checks of the source (the core String.startsWith
is extensionally the same but does not reduce definitionally). -/
def strStartsWith (s p : String) : Bool :=
  p.data.isPrefixOf s.data

/-- Component state: the entry list this._files and the module-global id
counter declared at line 10 of the source. -/
structure UploaderState where
  files : List FileWithMeta
  nextId : Nat
  deriving DecidableEq

/-- Lines 87 to 90: handleChangeStatus forwards to the onChangeStatus prop
when it is supplied, passing the entry and its current status. -/
def handleChangeStatus (cfg : Config) (f : FileWithMeta) : List Event :=
  if cfg.hasOnChangeStatus then [ Event.changeStatus f.meta.id f.meta.status ] else []

/-- Lines 105 to 110: the fresh entry pushed by handleFile.  The
lastModified && new Date(lastModified).toISOString() expression is falsy
exactly when the timestamp is 0. -/
def mkEntry (i : Nat) (uploadedDate : String) (file : RawFile) : FileWithMeta :=
  { file := file
    meta :=
      { name := file.name
        size := file.size
        type := file.type
        lastModifiedDate := if file.lastModified = 0 then none else some file.lastModified
        uploadedDate := uploadedDate
        status := Status.preparing
        percent := JsNum.finite 0
        id := i } }

/-- JavaScript falsiness of the destructured url at line 200: the url of
params || {} is undefined or the empty string. -/
def urlFalsy (params : Option UploadParams) : Bool :=
  match (params.getD default).url with
  | none => true
  | some s => s = ""

/-- Lines 198 to 246: the body of uploadFile from the point where the
awaited getUploadParams call has resolved.  With a falsy url the entry is
marked error_upload_params, notified and re-rendered and no request is sent;
otherwise the extra meta is merged, the request is configured and sent, and
the transport handle is stored on the entry (line 245, never removed). -/
def uploadFileResume (cfg : Config) (params : Option UploadParams) (f : FileWithMeta) :
    FileWithMeta × List Event :=
  let p := params.getD default
  if urlFalsy params then
    let f1 := { f with meta := { f.meta with status := Status.error_upload_params } }
    (f1, handleChangeStatus cfg f1 ++ [ Event.render ])
  else
    let u := p.url.getD ""
    let x : Xhr :=
      { method := p.method
        url := u
        headers := ( "X-Requested-With" , "XMLHttpRequest" ) :: p.headers
        fields := p.fields
        filePayload := f.file }
    let f1 := { f with meta := p.extraMeta f.meta, xhr := some x }
    (f1, [ Event.xhrSend u ])

/-- Lines 125 to 139: the triggerUpload closure.  A second invocation is a
no-op (line 128).  With getUploadParams supplied, uploadFile runs up to its
await and suspends, the status is set to uploading, notified and rendered,
and then the uploadFile continuation runs with the resolved params (the
await resumes strictly after the synchronous remainder of the closure);
without getUploadParams the status is set directly to done. -/
def triggerUpload (cfg : Config) (params : Option UploadParams) (f : FileWithMeta) :
    FileWithMeta × List Event :=
  if f.triggered then (f, [])
  else
    let f0 := { f with triggered := true }
    if cfg.hasGetUploadParams then
      let f1 := { f0 with meta := { f0.meta with status := Status.uploading } }
      let r := uploadFileResume cfg params f1
      (r.1, handleChangeStatus cfg f1 ++ [ Event.render ] ++ r.2)
    else
      let f1 := { f0 with meta := { f0.meta with status := Status.done } }
      (f1, handleChangeStatus cfg f1 ++ [ Event.render ])

/-- Lines 150 to 193: generatePreview, modelled as the completed run.  The
awaited promises only ever install a resolve handler (line 162), so the run
completes exactly when every relevant decode callback fires, and the catch
branch is unreachable; the environment supplies the metadata the callbacks
deliver.  For a non-media type nothing happens.  Otherwise an object URL is
allocated, the enabled media branches enrich the meta (for images the object
URL itself is stored in previewUrl at line 169), the URL is revoked at
line 190 and a re-render is requested. -/
def generatePreview (cfg : Config) (env : Env) (f : FileWithMeta) :
    FileWithMeta × List Event :=
  let t := f.meta.type
  let isImage := strStartsWith t "image/"
  let isAud := strStartsWith t "audio/"
  let isVid := strStartsWith t "video/"
  if !isImage && !isAud && !isVid then (f, [])
  else
    let u := env.objectUrl
    let f1 :=
      if isImage && cfg.previewTypes.contains "image" then
        { f with meta := { f.meta with
            previewUrl := some u
            width := some env.imgWidth
            height := some env.imgHeight } }
      else f
    let f2 :=
      if isAud && cfg.previewTypes.contains "audio" then
        { f1 with meta := { f1.meta with duration := some env.duration } }
      else f1
    let f3 :=
      if isVid && cfg.previewTypes.contains "video" then
        { f2 with meta := { f2.meta with
            duration := some env.duration
            videoWidth := some env.videoWidth
            videoHeight := some env.videoHeight } }
      else f2
    (f3, [ Event.createObjectURL u, Event.revokeObjectURL u, Event.render ])

/-- Line 102: a configured allow-list rejects the file when no prefix of the
list is a prefix of its type. -/
def typeRejected (cfg : Config) (file : RawFile) : Bool :=
  match cfg.allowedTypePrefixes with
  | some ps => !(ps.any (fun p => strStartsWith file.type p))
  | none => false

/-- Lines 92 to 148: handleFile.  The two silent rejections return before
the entry is created and before the id counter advances.  An accepted file
is appended with the next id, notified as preparing and rendered, and the
counter advances.  An oversize file is marked error_file_size, notified,
rendered, and processing stops.  Otherwise the preview runs, the
triggerUpload closure is attached when onUploadReady is supplied, and the
upload is triggered now unless onUploadReady asked for a delay.  All
mutations of the entry go through the alias pushed into the list, so the
final list holds the entry as left by the last stage. -/
def handleFile (cfg : Config) (env : Env) (st : UploaderState) (file : RawFile) :
    UploaderState × List Event :=
  if typeRejected cfg file then (st, [])
  else if st.files.length ≥ cfg.maxFiles then (st, [])
  else
    let f0 := mkEntry st.nextId env.uploadedDate file
    let evs0 := Event.entryCreated st.nextId :: handleChangeStatus cfg f0 ++ [ Event.render ]
    if file.size > cfg.maxSizeBytes then
      let f1 := { f0 with meta := { f0.meta with status := Status.error_file_size } }
      ({ files := st.files ++ [ f1 ], nextId := st.nextId + 1 },
        evs0 ++ handleChangeStatus cfg f1 ++ [ Event.render ])
    else
      let pr := generatePreview cfg env f0
      if cfg.hasOnUploadReady then
        let f2 := { pr.1 with hasTrigger := true }
        if env.delayUpload then
          ({ files := st.files ++ [ f2 ], nextId := st.nextId + 1 }, evs0 ++ pr.2)
        else
          let tr := triggerUpload cfg env.params f2
          ({ files := st.files ++ [ tr.1 ], nextId := st.nextId + 1 }, evs0 ++ pr.2 ++ tr.2)
      else
        let tr := triggerUpload cfg env.params pr.1
        ({ files := st.files ++ [ tr.1 ], nextId := st.nextId + 1 }, evs0 ++ pr.2 ++ tr.2)

/-- Lines 65 to 71: handleCancel.  The entry is located by id; when it is
present and holds a transport handle, the cancel observer (when supplied)
is invoked and then the transport is aborted.  Nothing else happens and the
state is unchanged. -/
def handleCancel (cfg : Config) (st : UploaderState) (i : Nat) :
    UploaderState × List Event :=
  match st.files.find? (fun f => f.meta.id == i) with
  | some f =>
    if f.xhr.isSome then
      (st, (if cfg.hasOnCancel then [ Event.cancelObserver f.meta.id ] else [])
        ++ [ Event.xhrAbort f.meta.id ])
    else (st, [])
  | none => (st, [])

/-- Lines 73 to 80: handleRemove.  The entry is located by id; when present
the remove observer (when supplied) is invoked, the first entry with that id
is spliced out, and a re-render is requested. -/
def handleRemove (cfg : Config) (st : UploaderState) (i : Nat) :
    UploaderState × List Event :=
  match st.files.find? (fun f => f.meta.id == i) with
  | some f =>
    ({ st with files := st.files.eraseP (fun g => g.meta.id == i) },
      (if cfg.hasOnRemove then [ Event.removeObserver f.meta.id ] else []) ++ [ Event.render ])
  | none => (st, [])

/-- Lines 222 to 241: the readystatechange listener, as a function of the
readyState and status of the transport.  Only readyState 2 and 4 are
handled; status 0 maps to aborted, status below 400 to headers_received at
readyState 2 and done at readyState 4 with percent forced to 100, and any
other status to error_upload; each transition notifies and re-renders. -/
def onReadyStateChange (cfg : Config) (readyState status : Nat) (f : FileWithMeta) :
    FileWithMeta × List Event :=
  if readyState ≠ 2 ∧ readyState ≠ 4 then (f, [])
  else if status = 0 then
    let f1 := { f with meta := { f.meta with status := Status.aborted } }
    (f1, handleChangeStatus cfg f1 ++ [ Event.render ])
  else if status < 400 then
    let m1 := { f.meta with percent := JsNum.finite 100 }
    let m2 := if readyState = 2 then { m1 with status := Status.headers_received } else m1
    let m3 := if readyState = 4 then { m2 with status := Status.done } else m2
    let f1 := { f with meta := m3 }
    (f1, handleChangeStatus cfg f1 ++ [ Event.render ])
  else
    let f1 := { f with meta := { f.meta with status := Status.error_upload } }
    (f1, handleChangeStatus cfg f1 ++ [ Event.render ])

/-- Lines 217 to 220: the progress listener stores the computed percent and
re-renders. -/
def onUploadProgress (loaded total : ℚ) (f : FileWithMeta) : FileWithMeta × List Event :=
  ({ f with meta := { f.meta with percent := progressPercent loaded total } }, [ Event.render ])

/-- Write an updated entry back into the list in place of the entry with the
same id, modelling mutation through the alias captured by the closures.  Ids
are unique in every reachable state, so at most one slot is affected. -/
def setEntry (st : UploaderState) (f : FileWithMeta) : UploaderState :=
  { st with files := st.files.map (fun g => if g.meta.id == f.meta.id then f else g) }

/-- A host call of the triggerUpload closure stored on an entry (deferred
uploads).  The closure exists only on entries that were handled with
onUploadReady supplied. -/
def fireTriggerOp (cfg : Config) (st : UploaderState) (i : Nat)
    (params : Option UploadParams) : UploaderState × List Event :=
  match st.files.find? (fun f => f.meta.id == i) with
  | some f =>
    if f.hasTrigger then
      let r := triggerUpload cfg params f
      (setEntry st r.1, r.2)
    else (st, [])
  | none => (st, [])

/-- Delivery of a transport readystatechange signal to the entry with the
given id.  The listener exists only when a request was issued, that is when
the entry holds a transport handle. -/
def deliverReadyState (cfg : Config) (st : UploaderState) (i readyState status : Nat) :
    UploaderState × List Event :=
  match st.files.find? (fun f => f.meta.id == i) with
  | some f =>
    if f.xhr.isSome then
      let r := onReadyStateChange cfg readyState status f
      (setEntry st r.1, r.2)
    else (st, [])
  | none => (st, [])

/-- Delivery of a transport progress signal to the entry with the given id. -/
def deliverProgress (st : UploaderState) (i : Nat) (loaded total : ℚ) :
    UploaderState × List Event :=
  match st.files.find? (fun f => f.meta.id == i) with
  | some f =>
    if f.xhr.isSome then
      let r := onUploadProgress loaded total f
      (setEntry st r.1, r.2)
    else (st, [])
  | none => (st, [])

/-- The host-visible operations of the component, each one a callback that
runs to completion on the single event thread. -/
inductive Op where
  | intake (env : Env) (file : RawFile)
  | cancel (i : Nat)
  | remove (i : Nat)
  | trigger (i : Nat) (params : Option UploadParams)
  | xhrReadyState (i readyState status : Nat)
  | xhrProgress (i : Nat) (loaded total : ℚ)

/-- Dispatch one operation. -/
def runOp (cfg : Config) (st : UploaderState) : Op → UploaderState × List Event
  | Op.intake env file => handleFile cfg env st file
  | Op.cancel i => handleCancel cfg st i
  | Op.remove i => handleRemove cfg st i
  | Op.trigger i params => fireTriggerOp cfg st i params
  | Op.xhrReadyState i rs s => deliverReadyState cfg st i rs s
  | Op.xhrProgress i loaded total => deliverProgress st i loaded total

/-- Run a sequence of operations, concatenating their effects. -/
def run (cfg : Config) (st : UploaderState) : List Op → UploaderState × List Event
  | [] => (st, [])
  | op :: ops =>
    let r := runOp cfg st op
    let r2 := run cfg r.1 ops
    (r2.1, r.2 ++ r2.2)

/-- The ids of the entries created during a trace, in creation order. -/
def createdIds : List Event → List Nat
  | [] => []
  | Event.entryCreated i :: evs => i :: createdIds evs
  | _ :: evs => createdIds evs

/-- The number of transport requests issued during a trace. -/
def sendCount (evs : List Event) : Nat :=
  (evs.filterMap (fun e => match e with
    | Event.xhrSend u => some u
    | _ => none)).length

/-- The status transitions notified to the observer during a trace. -/
def statusEvents (evs : List Event) : List (Nat × Status) :=
  evs.filterMap (fun e => match e with
    | Event.changeStatus i s => some (i, s)
    | _ => none)

/-! Concrete fixtures used by the closed instances below. -/

/-- A configuration with every optional callback supplied, no allow-list,
and the default preview types. -/
def cfgW : Config :=
  { maxSizeBytes := 1000000
    maxFiles := 5
    allowedTypePrefixes := none
    previewTypes := [ "image", "audio", "video" ]
    hasGetUploadParams := true
    hasOnUploadReady := false
    hasOnChangeStatus := true
    hasOnCancel := true
    hasOnRemove := true }

/-- The same configuration restricted to image types by the allow-list. -/
def cfgT : Config := { cfgW with allowedTypePrefixes := some [ "image/" ] }

/-- A small plain-text file. -/
def fileW : RawFile := { name := "a.txt", size := 10, type := "text/plain", lastModified := 1 }

/-- A file larger than the configured maximum of cfgW. -/
def fileBig : RawFile :=
  { name := "big.bin", size := 2000000, type := "application/zip", lastModified := 1 }

/-- A small image file. -/
def fileImg : RawFile := { name := "a.png", size := 10, type := "image/png", lastModified := 1 }

/-- Host answers: a fixed timestamp, one object URL, small decode metadata,
no upload delay, and params carrying a destination URL. -/
def envW : Env :=
  { uploadedDate := "2020-01-01T00:00:00.000Z"
    objectUrl := "blob:1"
    imgWidth := 8
    imgHeight := 6
    duration := 3
    videoWidth := 0
    videoHeight := 0
    delayUpload := false
    params := some { url := some "https://x/up" } }

/-- Upload params with a destination URL. -/
def paramsOk : Option UploadParams := some { url := some "https://x/up" }

/-- Upload params resolving to an empty object, hence no URL. -/
def paramsEmpty : Option UploadParams := some {}

/-- A freshly accepted plain-text entry with id 0. -/
def entryW : FileWithMeta := mkEntry 0 "2020-01-01T00:00:00.000Z" fileW

/-- A freshly accepted image entry with id 0. -/
def entryImg : FileWithMeta := mkEntry 0 "2020-01-01T00:00:00.000Z" fileImg

/-- A one-entry state holding entryW. -/
def stW : UploaderState := { files := [ entryW ], nextId := 1 }

/-! Helper lemmas. -/

/-- The uploadFile continuation never touches the triggered flag. -/
lemma uploadFileResume_triggered (cfg : Config) (params : Option UploadParams)
    (f : FileWithMeta) : (uploadFileResume cfg params f).1.triggered = f.triggered := by
  by_cases hu : urlFalsy params <;> simp [uploadFileResume, hu]

/-- A first invocation of the triggerUpload closure flips the flag. -/
lemma triggerUpload_triggered (cfg : Config) (params : Option UploadParams)
    (f : FileWithMeta) (h : f.triggered = false) :
    (triggerUpload cfg params f).1.triggered = true := by
  by_cases hg : cfg.hasGetUploadParams <;>
    simp [triggerUpload, h, hg, uploadFileResume_triggered]

/-! Claim theorems. -/

/-- C1, counterexample.  The claim says a progress event with zero bytes
sent and a positive total yields percent 0; on the code the JavaScript
or-default turns the computed 0 into 100. -/
theorem progress_zero_counterexample :
    (onUploadProgress 0 200 entryW).1.meta.percent = JsNum.finite 100 ∧
    (onUploadProgress 0 200 entryW).1.meta.percent ≠ JsNum.finite 0 := by
  norm_num [onUploadProgress, progressPercent, jsDivMul100, jsOr, JsNum.truthy]

/-- C1, amended.  On each progress event the handler re-renders and sets
percent to (loaded * 100) / total, except that the default of 100 is applied
whenever that JavaScript value is falsy, which happens not only for an
unknown or zero total but also whenever loaded is 0; when the total is zero
and loaded is positive the stored value is Infinity. -/
theorem progress_percent_amended (f : FileWithMeta) (loaded total : ℚ) :
    (loaded = 0 → (onUploadProgress loaded total f).1.meta.percent = JsNum.finite 100) ∧
    (0 < loaded → 0 < total →
      (onUploadProgress loaded total f).1.meta.percent =
        JsNum.finite (loaded * 100 / total)) ∧
    (0 < loaded → total = 0 →
      (onUploadProgress loaded total f).1.meta.percent = JsNum.inf) ∧
    (onUploadProgress loaded total f).2 = [ Event.render ] := by
  refine ⟨?_, ?_, ?_, rfl⟩
  · intro h0; subst h0
    by_cases ht : total = 0 <;>
      simp [onUploadProgress, progressPercent, jsDivMul100, jsOr, JsNum.truthy, ht]
  · intro hl ht
    have htne : total ≠ 0 := ne_of_gt ht
    have hpos : 0 < loaded * 100 / total := by positivity
    simp [onUploadProgress, progressPercent, jsDivMul100, jsOr, JsNum.truthy, htne,
      ne_of_gt hpos]
  · intro hl ht
    simp [onUploadProgress, progressPercent, jsDivMul100, jsOr, JsNum.truthy, ht,
      ne_of_gt hl]

/-- C1, witness for the amended statement at concrete inputs. -/
theorem progress_percent_amended_witness :
    (onUploadProgress 0 7 entryW).1.meta.percent = JsNum.finite 100 ∧
    (onUploadProgress 50 200 entryW).1.meta.percent = JsNum.finite (50 * 100 / 200) ∧
    (onUploadProgress 5 0 entryW).1.meta.percent = JsNum.inf :=
  ⟨(progress_percent_amended entryW 0 7).1 rfl,
   (progress_percent_amended entryW 50 200).2.1 (by norm_num) (by norm_num),
   (progress_percent_amended entryW 5 0).2.2.1 (by norm_num) rfl⟩

/-- C2.  Evaluation of the preview generator on an image that completes
decoding: the object URL is stored in previewUrl for later display, yet the
success path revokes that same URL (line 190 has no image guard), so the
retained reference is released, against the documented intent. -/
theorem generatePreview_image_revokes_retained_url :
    (generatePreview cfgW envW entryImg).1.meta.previewUrl = some "blob:1" ∧
    (generatePreview cfgW envW entryImg).2 =
      [ Event.createObjectURL "blob:1", Event.revokeObjectURL "blob:1", Event.render ] := by
  decide

/-- C4.  The triggerUpload closure is idempotent beyond its first
invocation: a second call after a first one is a no-op, any call on an
already-triggered entry is a no-op, a first call with an upload-params
provider and a usable URL issues exactly one transport request and exactly
one status notification (to uploading), and without a provider it issues no
request and moves the entry straight to done. -/
theorem triggerUpload_idempotent (cfg : Config) (p1 p2 : Option UploadParams)
    (f : FileWithMeta) (h : f.triggered = false) (hObs : cfg.hasOnChangeStatus = true) :
    triggerUpload cfg p2 (triggerUpload cfg p1 f).1 = ((triggerUpload cfg p1 f).1, []) ∧
    (∀ g : FileWithMeta, g.triggered = true → triggerUpload cfg p2 g = (g, [])) ∧
    (cfg.hasGetUploadParams = true → urlFalsy p1 = false →
      sendCount (triggerUpload cfg p1 f).2 = 1 ∧
      statusEvents (triggerUpload cfg p1 f).2 = [ (f.meta.id, Status.uploading) ]) ∧
    (cfg.hasGetUploadParams = false →
      sendCount (triggerUpload cfg p1 f).2 = 0 ∧
      statusEvents (triggerUpload cfg p1 f).2 = [ (f.meta.id, Status.done) ] ∧
      (triggerUpload cfg p1 f).1.meta.status = Status.done) := by
  have hnoop : ∀ g : FileWithMeta, g.triggered = true → triggerUpload cfg p2 g = (g, []) := by
    intro g hg; simp [triggerUpload, hg]
  refine ⟨hnoop _ (triggerUpload_triggered cfg p1 f h), hnoop, ?_, ?_⟩
  · intro hg hu
    simp [triggerUpload, h, hg, uploadFileResume, hu, handleChangeStatus, hObs,
      sendCount, statusEvents]
  · intro hg
    simp [triggerUpload, h, hg, handleChangeStatus, hObs, sendCount, statusEvents]

/-- C4, witness: a double invocation at concrete inputs with one request. -/
theorem triggerUpload_idempotent_witness :
    triggerUpload cfgW paramsOk (triggerUpload cfgW paramsOk entryW).1 =
      ((triggerUpload cfgW paramsOk entryW).1, []) ∧
    sendCount (triggerUpload cfgW paramsOk entryW).2 = 1 ∧
    statusEvents (triggerUpload cfgW paramsOk entryW).2 =
      [ (entryW.meta.id, Status.uploading) ] := by
  have h := triggerUpload_idempotent cfgW paramsOk paramsOk entryW rfl rfl
  exact ⟨h.1, (h.2.2.1 rfl (by decide)).1, (h.2.2.1 rfl (by decide)).2⟩

/-- C5.  An accepted file whose size exceeds the configured maximum is
registered, notified as preparing, then marked error_file_size, notified and
re-rendered, and processing stops: the result shows no object-URL
allocation (no preview) and no transport send, and the entry carries no
transport handle and no trigger. -/
theorem oversize_error_file_size (cfg : Config) (env : Env) (st : UploaderState)
    (file : RawFile) (hType : typeRejected cfg file = false)
    (hCount : st.files.length < cfg.maxFiles) (hSize : file.size > cfg.maxSizeBytes)
    (hObs : cfg.hasOnChangeStatus = true) :
    handleFile cfg env st file =
      ({ files := st.files ++
          [ { mkEntry st.nextId env.uploadedDate file with
              meta := { (mkEntry st.nextId env.uploadedDate file).meta with
                status := Status.error_file_size } } ]
         nextId := st.nextId + 1 },
       [ Event.entryCreated st.nextId, Event.changeStatus st.nextId Status.preparing,
         Event.render, Event.changeStatus st.nextId Status.error_file_size,
         Event.render ]) := by
  have hc : ¬ st.files.length ≥ cfg.maxFiles := by omega
  simp [handleFile, hType, hc, hSize, handleChangeStatus, hObs, mkEntry]

/-- C5, witness at a concrete oversize file. -/
theorem oversize_error_file_size_witness :
    handleFile cfgW envW { files := [], nextId := 0 } fileBig =
      ({ files :=
          [ { mkEntry 0 envW.uploadedDate fileBig with
              meta := { (mkEntry 0 envW.uploadedDate fileBig).meta with
                status := Status.error_file_size } } ]
         nextId := 1 },
       [ Event.entryCreated 0, Event.changeStatus 0 Status.preparing, Event.render,
         Event.changeStatus 0 Status.error_file_size, Event.render ]) := by
  have h := oversize_error_file_size cfgW envW { files := [], nextId := 0 } fileBig rfl
    (by decide) (by decide) rfl
  simpa using h

/-- C6.  When the upload-params provider resolves a value without a usable
destination URL, the triggered upload marks the entry uploading and then
error_upload_params, notifying and re-rendering each time, and no transport
request is sent (the effect list holds no send event and the entry holds no
transport handle). -/
theorem missing_url_error_upload_params (cfg : Config) (params : Option UploadParams)
    (f : FileWithMeta) (h1 : f.triggered = false) (h2 : cfg.hasGetUploadParams = true)
    (h3 : urlFalsy params = true) (hObs : cfg.hasOnChangeStatus = true) :
    triggerUpload cfg params f =
      ({ f with
          triggered := true
          meta := { f.meta with status := Status.error_upload_params } },
        [ Event.changeStatus f.meta.id Status.uploading, Event.render,
          Event.changeStatus f.meta.id Status.error_upload_params, Event.render ]) := by
  simp [triggerUpload, uploadFileResume, handleChangeStatus, h1, h2, h3, hObs]

/-- C6, witness: params resolving to an empty object. -/
theorem missing_url_error_upload_params_witness :
    triggerUpload cfgW paramsEmpty entryW =
      ({ entryW with
          triggered := true
          meta := { entryW.meta with status := Status.error_upload_params } },
        [ Event.changeStatus entryW.meta.id Status.uploading, Event.render,
          Event.changeStatus entryW.meta.id Status.error_upload_params, Event.render ]) :=
  missing_url_error_upload_params cfgW paramsEmpty entryW rfl rfl (by decide) rfl

/-- C7.  At the handled transport stages (readyState 2 and 4): a zero
status yields aborted; a status in [200, 400) yields headers_received at
stage 2 and done at stage 4 with percent forced to 100; a status of 400 or
more yields error_upload; each case notifies the observer and re-renders. -/
theorem readystatechange_mapping (cfg : Config) (f : FileWithMeta) (readyState code : Nat)
    (hrs : readyState = 2 ∨ readyState = 4) (hObs : cfg.hasOnChangeStatus = true) :
    (code = 0 → onReadyStateChange cfg readyState code f =
      ({ f with meta := { f.meta with status := Status.aborted } },
        [ Event.changeStatus f.meta.id Status.aborted, Event.render ])) ∧
    (200 ≤ code → code < 400 → onReadyStateChange cfg readyState code f =
      ({ f with meta := { f.meta with
          percent := JsNum.finite 100
          status := if readyState = 2 then Status.headers_received else Status.done } },
        [ Event.changeStatus f.meta.id
            (if readyState = 2 then Status.headers_received else Status.done),
          Event.render ])) ∧
    (400 ≤ code → onReadyStateChange cfg readyState code f =
      ({ f with meta := { f.meta with status := Status.error_upload } },
        [ Event.changeStatus f.meta.id Status.error_upload, Event.render ])) := by
  refine ⟨?_, ?_, ?_⟩
  · intro h0; subst h0
    rcases hrs with h | h <;> subst h <;>
      simp [onReadyStateChange, handleChangeStatus, hObs]
  · intro h1 h2
    have hne : code ≠ 0 := by omega
    rcases hrs with h | h <;> subst h <;>
      simp [onReadyStateChange, handleChangeStatus, hObs, hne, h2]
  · intro h1
    have hne : code ≠ 0 := by omega
    have hnl : ¬ code < 400 := by omega
    rcases hrs with h | h <;> subst h <;>
      simp [onReadyStateChange, handleChangeStatus, hObs, hne, hnl]

/-- C7, witness: a 200 response at the complete stage yields done with
percent 100. -/
theorem readystatechange_mapping_witness :
    onReadyStateChange cfgW 4 200 entryW =
      ({ entryW with meta := { entryW.meta with
          percent := JsNum.finite 100
          status := Status.done } },
        [ Event.changeStatus entryW.meta.id Status.done, Event.render ]) := by
  have h := (readystatechange_mapping cfgW entryW 4 200 (Or.inr rfl) rfl).2.1
    (by norm_num) (by norm_num)
  simpa using h

/-- C8.  A file rejected at intake, either by the type-prefix allow-list or
by the count limit, leaves the component untouched: no entry is created,
no observer fires, no effect happens, and the id counter does not advance. -/
theorem intake_rejection_noop (cfg : Config) (env : Env) (st : UploaderState)
    (file : RawFile)
    (h : typeRejected cfg file = true ∨ st.files.length ≥ cfg.maxFiles) :
    handleFile cfg env st file = (st, []) := by
  rcases h with h | h
  · simp [handleFile, h]
  · by_cases ht : typeRejected cfg file <;> simp [handleFile, ht, h]

/-- C8, witness: a text file against an image-only allow-list. -/
theorem intake_rejection_noop_witness :
    handleFile cfgT envW { files := [], nextId := 0 } fileW =
      ({ files := [], nextId := 0 }, []) :=
  intake_rejection_noop cfgT envW { files := [], nextId := 0 } fileW (Or.inl (by decide))

/-- C10.  When the id matches no entry, cancel and remove leave the state
unchanged and produce no effect at all; and cancel on an entry holding no
transport handle is likewise a complete no-op. -/
theorem cancel_remove_noop (cfg : Config) (st : UploaderState) (i : Nat) :
    (st.files.find? (fun f => f.meta.id == i) = none →
      handleCancel cfg st i = (st, []) ∧ handleRemove cfg st i = (st, [])) ∧
    (∀ f, st.files.find? (fun g => g.meta.id == i) = some f → f.xhr = none →
      handleCancel cfg st i = (st, [])) := by
  constructor
  · intro h
    constructor <;> simp [handleCancel, handleRemove, h]
  · intro f hf hx
    simp [handleCancel, hf, hx]

/-- C10, witness: a missing id, and a present entry without a handle. -/
theorem cancel_remove_noop_witness :
    handleCancel cfgW stW 5 = (stW, []) ∧ handleRemove cfgW stW 5 = (stW, []) ∧
    handleCancel cfgW stW 0 = (stW, []) := by
  have h1 := (cancel_remove_noop cfgW stW 5).1 (by decide)
  have h2 := (cancel_remove_noop cfgW stW 0).2 entryW (by decide) rfl
  exact ⟨h1.1, h1.2, h2⟩

/-! Fixtures and lemmas for the transport-handle claim. -/

/-- Intake of a plain file followed by a successful complete signal. -/
def opsDone : List Op := [ Op.intake envW fileW, Op.xhrReadyState 0 4 200 ]

/-- The empty initial state, with the id counter at 0 as in line 10. -/
def stInit : UploaderState := { files := [], nextId := 0 }

/-- The request built for entryW from paramsOk. -/
def xhrW : Xhr :=
  { method := "POST"
    url := "https://x/up"
    headers := [ ( "X-Requested-With" , "XMLHttpRequest" ) ]
    fields := []
    filePayload := fileW }

/-- An entry that finished its upload and still holds its handle. -/
def entryDone : FileWithMeta :=
  { entryW with
      meta := { entryW.meta with status := Status.done, percent := JsNum.finite 100 }
      xhr := some xhrW
      triggered := true }

/-- A one-entry state holding entryDone. -/
def stDone : UploaderState := { files := [ entryDone ], nextId := 1 }

/-- C3, counterexample.  After a full successful upload the entry has
status done yet still holds its transport handle (line 245 is never
undone), so a later cancel still finds a live handle and fires the cancel
observer and an abort, against the claim that no handle survives a
terminal status. -/
theorem xhr_after_done_counterexample :
    ((run cfgW stInit opsDone).1.files.map (fun f => (f.meta.status, f.xhr.isSome))) =
      [ (Status.done, true) ] ∧
    (handleCancel cfgW (run cfgW stInit opsDone).1 0).2 =
      [ Event.cancelObserver 0, Event.xhrAbort 0 ] := by decide

/-- C3, amended.  The transport handle is attached when the request is
issued and retained from then on: the transport lifecycle listener never
removes it (whatever stage or status code, including the transitions to
done, error_upload and aborted), and a cancel on an entry that still holds
a handle notifies the cancel observer (when supplied) and aborts the
transport. -/
theorem xhr_retained_amended (cfg : Config) (f : FileWithMeta) (rs code : Nat) :
    (onReadyStateChange cfg rs code f).1.xhr = f.xhr ∧
    (∀ (st : UploaderState) (x : Xhr),
      st.files.find? (fun g => g.meta.id == f.meta.id) = some f → f.xhr = some x →
      handleCancel cfg st f.meta.id =
        (st, (if cfg.hasOnCancel then [ Event.cancelObserver f.meta.id ] else [])
          ++ [ Event.xhrAbort f.meta.id ])) := by
  constructor
  · by_cases hg : rs ≠ 2 ∧ rs ≠ 4
    · simp [onReadyStateChange, hg]
    · by_cases h0 : code = 0
      · simp [onReadyStateChange, hg, h0]
      · by_cases h4 : code < 400 <;> simp [onReadyStateChange, hg, h0, h4]
  · intro st x hf hx
    simp [handleCancel, hf, hx]

/-- C3, witness for the amended statement: a finished entry keeps its
handle through a further transport signal, and cancel finds it. -/
theorem xhr_retained_amended_witness :
    (onReadyStateChange cfgW 4 200 entryDone).1.xhr = entryDone.xhr ∧
    handleCancel cfgW stDone entryDone.meta.id =
      (stDone, [ Event.cancelObserver entryDone.meta.id,
        Event.xhrAbort entryDone.meta.id ]) := by
  have h := xhr_retained_amended cfgW entryDone 4 200
  refine ⟨h.1, ?_⟩
  have h2 := h.2 stDone xhrW (by decide) rfl
  simpa [cfgW] using h2

/-! Lemmas for the id-uniqueness claim: no modelled callback other than an
accepting intake emits an entry creation, and an accepting intake creates
exactly the current counter value and advances the counter by one. -/

lemma createdIds_append (a b : List Event) :
    createdIds (a ++ b) = createdIds a ++ createdIds b := by
  induction a with
  | nil => rfl
  | cons e a ih => cases e <;> simp [createdIds, ih]

lemma createdIds_changeStatus (cfg : Config) (f : FileWithMeta) :
    createdIds (handleChangeStatus cfg f) = [] := by
  unfold handleChangeStatus
  split <;> rfl

lemma createdIds_resume (cfg : Config) (p : Option UploadParams) (f : FileWithMeta) :
    createdIds (uploadFileResume cfg p f).2 = [] := by
  unfold uploadFileResume
  split <;> simp [createdIds, createdIds_append, createdIds_changeStatus]

lemma createdIds_trigger (cfg : Config) (p : Option UploadParams) (f : FileWithMeta) :
    createdIds (triggerUpload cfg p f).2 = [] := by
  unfold triggerUpload
  split
  · rfl
  · split <;>
      simp [createdIds, createdIds_append, createdIds_changeStatus, createdIds_resume]

lemma createdIds_preview (cfg : Config) (env : Env) (f : FileWithMeta) :
    createdIds (generatePreview cfg env f).2 = [] := by
  simp only [generatePreview]
  split <;> simp [createdIds]

lemma createdIds_rsc (cfg : Config) (rs code : Nat) (f : FileWithMeta) :
    createdIds (onReadyStateChange cfg rs code f).2 = [] := by
  unfold onReadyStateChange
  split
  · rfl
  · split
    · simp [createdIds, createdIds_append, createdIds_changeStatus]
    · split <;> simp [createdIds, createdIds_append, createdIds_changeStatus]

lemma handleFile_created (cfg : Config) (env : Env) (st : UploaderState) (file : RawFile) :
    (handleFile cfg env st file = (st, [])) ∨
    (createdIds (handleFile cfg env st file).2 = [ st.nextId ] ∧
      (handleFile cfg env st file).1.nextId = st.nextId + 1) := by
  simp only [handleFile]
  split
  · left; rfl
  · split
    · left; rfl
    · right
      split
      · simp [createdIds, createdIds_append, createdIds_changeStatus]
      · split
        · split <;>
            simp [createdIds, createdIds_append, createdIds_changeStatus,
              createdIds_preview, createdIds_trigger]
        · simp [createdIds, createdIds_append, createdIds_changeStatus,
            createdIds_preview, createdIds_trigger]

lemma runOp_created (cfg : Config) (st : UploaderState) (op : Op) :
    ((runOp cfg st op).1.nextId = st.nextId ∧ createdIds (runOp cfg st op).2 = []) ∨
    ((runOp cfg st op).1.nextId = st.nextId + 1 ∧
      createdIds (runOp cfg st op).2 = [ st.nextId ]) := by
  cases op with
  | intake env file =>
    rcases handleFile_created cfg env st file with h | h
    · left; simp [runOp, h, createdIds]
    · right; exact ⟨h.2, h.1⟩
  | cancel i =>
    left
    unfold runOp handleCancel
    cases hf : st.files.find? (fun f => f.meta.id == i) with
    | none => simp [hf, createdIds]
    | some f =>
      by_cases hx : f.xhr.isSome <;> by_cases hc : cfg.hasOnCancel <;>
        simp [hf, hx, hc, createdIds]
  | remove i =>
    left
    unfold runOp handleRemove
    cases hf : st.files.find? (fun f => f.meta.id == i) with
    | none => simp [hf, createdIds]
    | some f => by_cases hr : cfg.hasOnRemove <;> simp [hf, hr, createdIds]
  | trigger i params =>
    left
    unfold runOp fireTriggerOp
    cases hf : st.files.find? (fun f => f.meta.id == i) with
    | none => simp [hf, createdIds]
    | some f =>
      by_cases ht : f.hasTrigger <;>
        simp [hf, ht, createdIds, createdIds_trigger, setEntry]
  | xhrReadyState i rs code =>
    left
    unfold runOp deliverReadyState
    cases hf : st.files.find? (fun f => f.meta.id == i) with
    | none => simp [hf, createdIds]
    | some f =>
      by_cases hx : f.xhr.isSome <;>
        simp [hf, hx, createdIds, createdIds_rsc, setEntry]
  | xhrProgress i loaded total =>
    left
    unfold runOp deliverProgress
    cases hf : st.files.find? (fun f => f.meta.id == i) with
    | none => simp [hf, createdIds]
    | some f =>
      by_cases hx : f.xhr.isSome <;>
        simp [hf, hx, createdIds, onUploadProgress, setEntry]

lemma run_created_spec (cfg : Config) : ∀ (ops : List Op) (st : UploaderState),
    st.nextId ≤ (run cfg st ops).1.nextId ∧
    (∀ i ∈ createdIds (run cfg st ops).2, st.nextId ≤ i ∧ i < (run cfg st ops).1.nextId) ∧
    List.Pairwise (· < ·) (createdIds (run cfg st ops).2) := by
  intro ops
  induction ops with
  | nil => intro st; simp [run, createdIds]
  | cons op ops ih =>
    intro st
    obtain ⟨ihle, ihmem, ihpw⟩ := ih (runOp cfg st op).1
    have hsplit : run cfg st (op :: ops) =
        ((run cfg (runOp cfg st op).1 ops).1,
          (runOp cfg st op).2 ++ (run cfg (runOp cfg st op).1 ops).2) := rfl
    rw [hsplit]
    dsimp only
    rw [createdIds_append]
    rcases runOp_created cfg st op with ⟨hn, hc⟩ | ⟨hn, hc⟩ <;> rw [hc]
    · simp only [List.nil_append]
      refine ⟨by omega, ?_, ihpw⟩
      intro i hi
      have hm := ihmem i hi
      omega
    · simp only [List.singleton_append]
      refine ⟨by omega, ?_, ?_⟩
      · intro i hi
        rcases List.mem_cons.mp hi with h | h
        · refine ⟨by omega, ?_⟩
          subst h; omega
        · have hm := ihmem i h
          omega
      · refine List.Pairwise.cons ?_ ihpw
        intro b hb
        have hm := ihmem b hb
        omega

/-- C9.  Along every trace of operations from the initial state, the ids
assigned to created entries form a strictly increasing sequence, hence all
distinct, and an id is never assigned twice, whatever removals happen in
between. -/
theorem ids_strictly_increasing (cfg : Config) (ops : List Op) :
    List.Pairwise (· < ·) (createdIds (run cfg { files := [], nextId := 0 } ops).2) ∧
    List.Nodup (createdIds (run cfg { files := [], nextId := 0 } ops).2) := by
  have h := (run_created_spec cfg ops { files := [], nextId := 0 }).2.2
  exact ⟨h, h.imp (fun hlt => Nat.ne_of_lt hlt)⟩

end FileUploader
